import Mathlib

/-!
supervisor-mgr: dispatch engine and status reporter.

Shallow embedding of `supervisor.go`.

* Effects (remote calls, standard output, the tab writer, the clock) are made
  explicit: the program threads a `World`, the list of events it has caused so
  far, and asks a `Remote` environment for the answer of each external call.
  The environment may answer differently depending on everything that happened
  before.
* `log.Fatal` terminates the process; a computation therefore ends in an
  `Outcome`: it either returns to its caller or exits the process.
* Go `int64`, and `int` on a 64-bit target, are integers of the 64-bit two's
  complement range (`I64`); arithmetic that can leave the range wraps
  explicitly (`wrapInt64`). Conversions between `int` and `int64` keep the
  value.
-/

set_option autoImplicit false

namespace Supervisor

/-! ## Data model -/

/-- A Go `int64` (or `int` on a 64-bit target): an integer in
`[-2^63, 2^63)`. -/
abbrev I64 : Type :=
  { x : Int // -9223372036854775808 ≤ x ∧ x < 9223372036854775808 }

/-- Reduction of an integer to the 64-bit two's complement range, which is what
Go's `int64` arithmetic does on overflow. -/
def wrapInt64 (x : Int) : I64 :=
  ⟨(x + 9223372036854775808) % 18446744073709551616 - 9223372036854775808, by omega⟩

/-- `type ServerInfo struct` (supervisor.go:281). -/
structure ServerInfo where
  Name : String
  Url : String
  UserName : String
  Password : String
deriving DecidableEq, Repr

/-- The fields of the remote client's process record that the program reads
(`info.Name`, `info.Statename`, `info.Pid`, `info.Start`). -/
structure ProcessInfo where
  Name : String
  Statename : String
  Pid : I64
  Start : I64
deriving DecidableEq, Repr

/-- `type ServiceState struct` (supervisor.go:68). -/
structure ServiceState where
  Name : String
  State : String
  Pid : I64
  Started_ts : I64
  Uptime_seconds : I64
deriving DecidableEq, Repr

/-- The JSON document built by `getStatusJson` with three `sjson.Set` calls:
keys `server_name`, `now_ts` and `services`. -/
structure StatusDoc where
  server_name : String
  now_ts : I64
  services : List ServiceState
deriving DecidableEq, Repr

/-- Go `error` values the program can hold: its three package-level variables
(supervisor.go:62-66) and errors produced by the remote client. -/
inductive GoError where
  | errStartFail
  | errStopFail
  | errServerAndProcessNameAreNeeded
  | remote (msg : String)
deriving DecidableEq, Repr

/-- The `Error()` text. `errStartFail` is created with the text "stop fail" in
the source, like `errStopFail`; they remain two different error values. -/
def GoError.Error : GoError → String
  | .errStartFail => "stop fail"
  | .errStopFail => "stop fail"
  | .errServerAndProcessNameAreNeeded => "server and process name are needed"
  | .remote msg => msg

/-- One line written to the shared tab writer by `printStatus`. The start
column keeps the epoch; its local-time rendering is not modelled. -/
inductive TableLine where
  | server (name url : String)
  | columns
  | row (name state : String) (pid start : I64)
  | blank
deriving DecidableEq, Repr

/-- An observable action of the program. -/
inductive Event where
  | GetAllProcessInfo (sInfo : ServerInfo)
  | ChangeProcessState (sInfo : ServerInfo) (action processName : String)
  | Println (line : String)
  | PrintlnJson (doc : StatusDoc)
  | Fprintf (line : TableLine)
  | Flush
  | Fatal (err : GoError)
deriving DecidableEq, Repr

/-- Everything the program has done so far, oldest event first. -/
abbrev World := List Event

/-- The external collaborators: the XML-RPC client and the clock. Each answer
may depend on the whole history. An `Except.error msg` is a transport or
protocol error. -/
structure Remote where
  GetAllProcessInfo : World → ServerInfo → Except String (List ProcessInfo)
  ChangeProcessState : World → ServerInfo → String → String → Except String Bool
  UnixNano : World → I64

/-- How a computation ends: it returns a value to its caller, or the process
exits (`os.Exit`, reached through `log.Fatal`). -/
inductive Outcome (σ : Type) (α : Type) where
  | ret (a : α) (s : σ)
  | exit (code : Nat) (s : σ)
deriving DecidableEq, Repr

/-- An operation that always returns to its caller, seen as an `Outcome`. -/
def returning {σ α : Type} (r : α × σ) : Outcome σ α :=
  Outcome.ret r.1 r.2

/-! ## Dispatch engine -/

/-- The inner loop of `executeOnServer` (supervisor.go:179-187) for one target
`name`. `some err` means the function returned `err` from inside the loop;
`none` means the loop ran to its end. -/
def executeOnServer.inner {σ : Type} (continueWhenError : Bool)
    (f : ServerInfo → σ → Outcome σ (Option GoError)) (name : String) :
    List ServerInfo → σ → Outcome σ (Option GoError)
  | [], s => .ret none s
  | info :: rest, s =>
    if info.Name ≠ name then
      executeOnServer.inner continueWhenError f name rest s
    else
      match f info s with
      | .exit code s' => .exit code s'
      | .ret err s' =>
        if err ≠ none && !continueWhenError then
          .ret err s'
        else
          executeOnServer.inner continueWhenError f name rest s'

/-- `func executeOnServer(names, continueWhenError, f)` (supervisor.go:177-190),
with the registry `cfg.Servers` as an explicit argument: nothing in the program
writes `cfg` once `loadConfig` has run. -/
def executeOnServer {σ : Type} (Servers : List ServerInfo) :
    List String → Bool → (ServerInfo → σ → Outcome σ (Option GoError)) →
    σ → Outcome σ (Option GoError)
  | [], _, _, s => .ret none s
  | name :: names, continueWhenError, f, s =>
    match executeOnServer.inner continueWhenError f name Servers s with
    | .exit code s' => .exit code s'
    | .ret (some err) s' => .ret (some err) s'
    | .ret none s' => executeOnServer Servers names continueWhenError f s'

/-! ### Specification vocabulary for the dispatch engine -/

/-- The endpoints a dispatch is meant to reach: the target names in the given
order and, for each name, every registry entry with that name, in registry
order. -/
def matchedEndpoints (Servers : List ServerInfo) (names : List String) : List ServerInfo :=
  names.flatMap (fun name => Servers.filter (fun info => info.Name = name))

/-- An operation instrumented to record, next to its own state, the endpoint of
every invocation. -/
def logged {σ : Type} (g : ServerInfo → σ → Option GoError × σ) :
    ServerInfo → σ × List ServerInfo → Outcome (σ × List ServerInfo) (Option GoError) :=
  fun info st => .ret (g info st.1).1 ((g info st.1).2, st.2 ++ [info])

/-- Applying `step` to the elements of a list in order, starting in `s`:
`some s'` when every application succeeds (returns no error) and leaves `s'`,
`none` as soon as one fails. -/
def runOk {α σ : Type} (step : α → σ → Option GoError × σ) : List α → σ → Option σ
  | [], s => some s
  | a :: as, s =>
    match step a s with
    | (none, s') => runOk step as s'
    | (some _, _) => none

/-- A sequential loop over already resolved items that stops at the first item
whose operation exits the process, or returns an error while
`continueWhenError` is off. -/
def runFlat {α σ : Type} (continueWhenError : Bool)
    (f : α → σ → Outcome σ (Option GoError)) : List α → σ → Outcome σ (Option GoError)
  | [], s => .ret none s
  | a :: as, s =>
    match f a s with
    | .exit code s' => .exit code s'
    | .ret err s' =>
      if err ≠ none && !continueWhenError then .ret err s'
      else runFlat continueWhenError f as s'

/-! ## Status reporter -/

/-- `NOW_TS := int64(time.Now().UnixNano() / int64(time.Millisecond) / 1000)`
(supervisor.go:100); Go's integer division truncates toward zero. -/
def NOW_TS (unixNano : I64) : I64 :=
  wrapInt64 (Int.tdiv (Int.tdiv unixNano.val 1000000) 1000)

/-- The body of the loop in `getStatusJson` (supervisor.go:107-117): the
`ServiceState` built for one process record. -/
def getStatusJson.service (NOW_TS : I64) (info : ProcessInfo) : ServiceState :=
  let Uptime_seconds : I64 :=
    if info.Start.val > 0 then wrapInt64 (NOW_TS.val - info.Start.val) else ⟨0, by decide⟩
  { Name := info.Name
    State := info.Statename
    Pid := info.Pid
    Started_ts := info.Start
    Uptime_seconds := Uptime_seconds }

/-- The loop `for _, info := range pInfo.Value` of `getStatusJson`
(supervisor.go:106-119), appending to `services`. -/
def getStatusJson.loop (NOW_TS : I64) : List ProcessInfo → List ServiceState → List ServiceState
  | [], services => services
  | info :: rest, services =>
    getStatusJson.loop NOW_TS rest (services ++ [getStatusJson.service NOW_TS info])

/-- `func getStatusJson(sInfo) (string, error)` (supervisor.go:94-123). The
returned string is the document on success; on failure the error is returned
(with the empty string). -/
def getStatusJson (env : Remote) (sInfo : ServerInfo) (w : World) :
    Except GoError StatusDoc × World :=
  let w1 := w ++ [Event.GetAllProcessInfo sInfo]
  let now := NOW_TS (env.UnixNano w1)
  match env.GetAllProcessInfo w sInfo with
  | .error msg => (.error (.remote msg), w1 ++ [Event.Println (GoError.remote msg).Error])
  | .ok pInfo =>
    (.ok { server_name := sInfo.Name, now_ts := now,
           services := getStatusJson.loop now pInfo [] }, w1)

/-- `func printStatusJson(sInfo) error` (supervisor.go:85-92): a failure of
`getStatusJson` goes to `log.Fatal`, which logs and exits with status 1. -/
def printStatusJson (env : Remote) (sInfo : ServerInfo) (w : World) :
    Outcome World (Option GoError) :=
  match getStatusJson env sInfo w with
  | (.error err, w1) => .exit 1 (w1 ++ [Event.Fatal err])
  | (.ok status_json, w1) => .ret none (w1 ++ [Event.PrintlnJson status_json])

/-- The row loop of `printStatus` (supervisor.go:134-136). -/
def printStatus.rows : List ProcessInfo → World → World
  | [], w => w
  | info :: rest, w =>
    printStatus.rows rest
      (w ++ [Event.Fprintf (.row info.Name info.Statename info.Pid info.Start)])

/-- `func printStatus(sInfo) error` (supervisor.go:125-141). -/
def printStatus (env : Remote) (sInfo : ServerInfo) (w : World) : Option GoError × World :=
  let w1 := w ++ [Event.GetAllProcessInfo sInfo]
  match env.GetAllProcessInfo w sInfo with
  | .error msg => (some (.remote msg), w1 ++ [Event.Println (GoError.remote msg).Error])
  | .ok pInfo =>
    let w2 := w1 ++ [Event.Fprintf (.server sInfo.Name sInfo.Url)]
    let w3 := w2 ++ [Event.Fprintf .columns]
    let w4 := printStatus.rows pInfo w3
    let w5 := w4 ++ [Event.Fprintf .blank]
    (none, w5 ++ [Event.Flush])

/-! ## Mutating operations -/

/-- `func start(sInfo, processName) error` (supervisor.go:143-158). -/
def start (env : Remote) (sInfo : ServerInfo) (processName : String) (w : World) :
    Option GoError × World :=
  let w1 := w ++ [Event.ChangeProcessState sInfo "start" processName]
  match env.ChangeProcessState w sInfo "start" processName with
  | .error msg => (some (.remote msg), w1 ++ [Event.Println (GoError.remote msg).Error])
  | .ok true => (none, w1 ++ [Event.Println "start Ok!"])
  | .ok false => (some .errStartFail, w1 ++ [Event.Println "start Fail!"])

/-- `func stop(sInfo, processName) error` (supervisor.go:160-175). -/
def stop (env : Remote) (sInfo : ServerInfo) (processName : String) (w : World) :
    Option GoError × World :=
  let w1 := w ++ [Event.ChangeProcessState sInfo "stop" processName]
  match env.ChangeProcessState w sInfo "stop" processName with
  | .error msg => (some (.remote msg), w1 ++ [Event.Println (GoError.remote msg).Error])
  | .ok true => (none, w1 ++ [Event.Println "stop Ok!"])
  | .ok false => (some .errStopFail, w1 ++ [Event.Println "stop Fail!"])

/-! ## Command handlers -/

/-- The `else` branch of `cmdStatusJson.Execute` (supervisor.go:201-203): every
registry entry in turn, the returned error discarded. -/
def cmdStatusJson.Execute.all (env : Remote) : List ServerInfo → World →
    Outcome World (Option GoError)
  | [], w => .ret none w
  | info :: rest, w =>
    match printStatusJson env info w with
    | .exit code w' => .exit code w'
    | .ret _ w' => cmdStatusJson.Execute.all env rest w'

/-- `func (*cmdStatusJson) Execute(args) error` (supervisor.go:195-206). -/
def cmdStatusJson.Execute (env : Remote) (Servers : List ServerInfo) (args : List String)
    (w : World) : Outcome World (Option GoError) :=
  if args.length > 0 then
    executeOnServer Servers args true (fun sInfo w => printStatusJson env sInfo w) w
  else
    cmdStatusJson.Execute.all env Servers w

/-- The `else` branch of `cmdStatus.Execute` (supervisor.go:217-219). -/
def cmdStatus.Execute.all (env : Remote) : List ServerInfo → World → World
  | [], w => w
  | info :: rest, w => cmdStatus.Execute.all env rest (printStatus env info w).2

/-- `func (*cmdStatus) Execute(args) error` (supervisor.go:211-222). -/
def cmdStatus.Execute (env : Remote) (Servers : List ServerInfo) (args : List String)
    (w : World) : Outcome World (Option GoError) :=
  if args.length > 0 then
    executeOnServer Servers args true (fun sInfo w => returning (printStatus env sInfo w)) w
  else
    .ret none (cmdStatus.Execute.all env Servers w)

/-- The closure passed by `cmdStart.Execute` (supervisor.go:232-239): the loop
over `args[1:]`, returning the first error of `start`. -/
def cmdStart.Execute.body (env : Remote) (sInfo : ServerInfo) :
    List String → World → Option GoError × World
  | [], w => (none, w)
  | processName :: rest, w =>
    match start env sInfo processName w with
    | (some err, w') => (some err, w')
    | (none, w') => cmdStart.Execute.body env sInfo rest w'

/-- `func (*cmdStart) Execute(args) error` (supervisor.go:227-240). -/
def cmdStart.Execute (env : Remote) (Servers : List ServerInfo) (args : List String)
    (w : World) : Outcome World (Option GoError) :=
  if h : args.length ≤ 1 then
    .ret (some .errServerAndProcessNameAreNeeded)
      (w ++ [Event.Println "server name and process name needed"])
  else
    executeOnServer Servers [args[0]] false
      (fun sInfo w => returning (cmdStart.Execute.body env sInfo (args.drop 1) w)) w

/-- The closure passed by `cmdStop.Execute` (supervisor.go:250-257). -/
def cmdStop.Execute.body (env : Remote) (sInfo : ServerInfo) :
    List String → World → Option GoError × World
  | [], w => (none, w)
  | processName :: rest, w =>
    match stop env sInfo processName w with
    | (some err, w') => (some err, w')
    | (none, w') => cmdStop.Execute.body env sInfo rest w'

/-- `func (*cmdStop) Execute(args) error` (supervisor.go:245-258). -/
def cmdStop.Execute (env : Remote) (Servers : List ServerInfo) (args : List String)
    (w : World) : Outcome World (Option GoError) :=
  if h : args.length ≤ 1 then
    .ret (some .errServerAndProcessNameAreNeeded)
      (w ++ [Event.Println "server name and process name needed"])
  else
    executeOnServer Servers [args[0]] false
      (fun sInfo w => returning (cmdStop.Execute.body env sInfo (args.drop 1) w)) w

/-! ### Observations on a run -/

/-- The endpoints on which "get all process info" was called, in call order. -/
def listCalls (w : World) : List ServerInfo :=
  w.filterMap (fun e => match e with
    | .GetAllProcessInfo sInfo => some sInfo
    | _ => none)

/-- The "change process state" calls issued, in call order, as
(endpoint, action, process name). -/
def changeCalls (w : World) : List (ServerInfo × String × String) :=
  w.filterMap (fun e => match e with
    | .ChangeProcessState sInfo action processName => some (sInfo, action, processName)
    | _ => none)

/-- The `(endpoint, process name)` pairs a start or stop invocation
`[server, p1, ..., pn]` is meant to attempt: every registry entry named
`server`, in registry order, and for each of them the process names in argument
order. With a single registry entry `e` of that name this is
`(e, p1), ..., (e, pn)`. -/
def attempts (Servers : List ServerInfo) (server : String) (processNames : List String) :
    List (ServerInfo × String) :=
  (Servers.filter (fun info => info.Name = server)).flatMap
    (fun e => processNames.map (fun p => (e, p)))

/-- An `I64` from an integer literal. -/
def i64 (x : Int)
    (h : -9223372036854775808 ≤ x ∧ x < 9223372036854775808 := by decide) : I64 :=
  ⟨x, h⟩

def serverA : ServerInfo := ⟨"a", "http://a.example:9001/RPC2", "admin", "secret"⟩

def serverB : ServerInfo := ⟨"b", "http://b.example:9001/RPC2", "admin", "secret"⟩

/-- A second registry entry with the same name as `serverA`. -/
def serverA2 : ServerInfo := ⟨"a", "http://a2.example:9001/RPC2", "admin", "secret"⟩

def webProc : ProcessInfo := ⟨"web", "RUNNING", i64 4711, i64 100⟩

def dbProc : ProcessInfo := ⟨"db", "STOPPED", i64 0, i64 0⟩

/-- Every server reports `webProc` (started at epoch 100) and `dbProc` (never
started); the local clock reads 50 s, earlier than the start of `webProc`. -/
def envClockBehind : Remote :=
  { GetAllProcessInfo := fun _ _ => .ok [webProc, dbProc]
    ChangeProcessState := fun _ _ _ _ => .ok true
    UnixNano := fun _ => i64 50000000000 }

/-- As `envClockBehind`, with the local clock at 150 s. -/
def envClockAhead : Remote :=
  { GetAllProcessInfo := fun _ _ => .ok [webProc, dbProc]
    ChangeProcessState := fun _ _ _ _ => .ok true
    UnixNano := fun _ => i64 150000000000 }

/-- Servers named "a" cannot be reached; the others report `webProc` and
`dbProc`. A state change of process "p2" is refused (`false`), of process "p4"
fails in transport, any other one succeeds. -/
def envADown : Remote :=
  { GetAllProcessInfo := fun _ sInfo =>
      if sInfo.Name = "a" then .error "connection refused" else .ok [webProc, dbProc]
    ChangeProcessState := fun _ _ _ processName =>
      if processName = "p2" then .ok false
      else if processName = "p4" then .error "timeout"
      else .ok true
    UnixNano := fun _ => i64 150000000000 }

/-- An operation on a counter that fails on `serverB` and counts its
invocations. -/
def countingOp : ServerInfo → Nat → Option GoError × Nat :=
  fun info n => (if info.Name = "b" then some (.remote "b is down") else none, n + 1)

/-! ## Theorems -/

theorem runFlat_append {α σ : Type} (c : Bool) (f : α → σ → Outcome σ (Option GoError))
    (xs ys : List α) (s : σ) :
    runFlat c f (xs ++ ys) s =
      match runFlat c f xs s with
      | .exit code s' => .exit code s'
      | .ret (some err) s' => .ret (some err) s'
      | .ret none s' => runFlat c f ys s' := by
  induction xs generalizing s with
  | nil => simp [runFlat]
  | cons a as ih =>
    simp only [List.cons_append, runFlat]
    cases h : f a s with
    | exit code s' => simp
    | ret err s' =>
      cases err with
      | none => simp [ih]
      | some e => cases c <;> simp [ih]

theorem inner_eq_runFlat {σ : Type} (c : Bool) (f : ServerInfo → σ → Outcome σ (Option GoError))
    (name : String) (Servers : List ServerInfo) (s : σ) :
    executeOnServer.inner c f name Servers s =
      runFlat c f (Servers.filter (fun info => info.Name = name)) s := by
  induction Servers generalizing s with
  | nil => simp [executeOnServer.inner, runFlat]
  | cons info rest ih =>
    by_cases hn : info.Name = name
    · simp only [executeOnServer.inner, hn, ne_eq, not_true_eq_false, if_false,
        List.filter_cons, decide_True, if_true, runFlat]
      cases h : f info s with
      | exit code s' => simp
      | ret err s' => simp [ih]
    · simp [executeOnServer.inner, hn, List.filter_cons, ih]

theorem executeOnServer_eq_runFlat {σ : Type} (Servers : List ServerInfo)
    (names : List String) (c : Bool) (f : ServerInfo → σ → Outcome σ (Option GoError)) (s : σ) :
    executeOnServer Servers names c f s = runFlat c f (matchedEndpoints Servers names) s := by
  induction names generalizing s with
  | nil => simp [executeOnServer, matchedEndpoints, runFlat]
  | cons name names ih =>
    have hm : matchedEndpoints Servers (name :: names) =
        Servers.filter (fun info => info.Name = name) ++ matchedEndpoints Servers names := by
      simp [matchedEndpoints]
    rw [hm, runFlat_append, executeOnServer, inner_eq_runFlat]
    cases h : runFlat c f (Servers.filter (fun info => info.Name = name)) s with
    | exit code s' => simp
    | ret err s' =>
      cases err with
      | none => simp [ih]
      | some e => simp


/-! ### The dispatch engine reaches the matched endpoints (C1, C2, C3) -/

theorem runFlat_logged_all {σ : Type} (c : Bool) (g : ServerInfo → σ → Option GoError × σ)
    (h : c = true ∨ ∀ info s, (g info s).1 = none)
    (xs : List ServerInfo) (s : σ) (log : List ServerInfo) :
    runFlat c (logged g) xs (s, log) =
      .ret none (xs.foldl (fun s info => (g info s).2) s, log ++ xs) := by
  induction xs generalizing s log with
  | nil => simp [runFlat]
  | cons x xs ih =>
    have hstep : ¬ ((g x s).1 ≠ none ∧ c = false) := by
      rcases h with h | h
      · simp [h]
      · simp [h x s]
    simp only [runFlat, logged]
    rw [if_neg (by simpa using hstep)]
    have := ih (g x s).2 (log ++ [x])
    simpa [logged] using this

theorem runFlat_logged_abort {σ : Type} (g : ServerInfo → σ → Option GoError × σ)
    (pre : List ServerInfo) (e : ServerInfo) (post : List ServerInfo) (err : GoError)
    (s s1 s2 : σ) (log : List ServerInfo)
    (hpre : runOk g pre s = some s1) (hfail : g e s1 = (some err, s2)) :
    runFlat false (logged g) (pre ++ e :: post) (s, log) =
      .ret (some err) (s2, log ++ (pre ++ [e])) := by
  induction pre generalizing s log with
  | nil =>
    simp only [runOk, Option.some.injEq] at hpre
    subst hpre
    simp [runFlat, logged, hfail]
  | cons x xs ih =>
    simp only [runOk] at hpre
    cases hx : g x s with
    | mk r s' =>
      rw [hx] at hpre
      cases r with
      | some e' => simp at hpre
      | none =>
        simp only at hpre
        have := ih s' (log ++ [x]) hpre
        simpa [runFlat, logged, hx] using this

theorem runFlat_pure_result {σ : Type} (c : Bool) (res : ServerInfo → Option GoError)
    (step : ServerInfo → σ → σ) (xs : List ServerInfo) (s : σ) :
    ∃ r s', runFlat c (fun info s => Outcome.ret (res info) (step info s)) xs s = .ret r s' ∧
      (r ≠ none ↔ c = false ∧ ∃ e ∈ xs, res e ≠ none) := by
  induction xs generalizing s with
  | nil => exact ⟨none, s, by simp [runFlat], by simp⟩
  | cons x xs ih =>
    obtain ⟨r, s', hrun, hiff⟩ := ih (step x s)
    by_cases hx : res x ≠ none ∧ c = false
    · refine ⟨res x, step x s, ?_, ?_⟩
      · simp only [runFlat]
        rw [if_pos (by simpa using hx)]
      · constructor
        · intro _
          exact ⟨hx.2, x, by simp, hx.1⟩
        · intro _
          exact hx.1
    · refine ⟨r, s', ?_, ?_⟩
      · simp only [runFlat]
        rw [if_neg (by simpa using hx)]
        exact hrun
      · rw [hiff]
        constructor
        · rintro ⟨hc, e, he, hne⟩
          exact ⟨hc, e, by simp [he], hne⟩
        · rintro ⟨hc, e, he, hne⟩
          refine ⟨hc, ?_⟩
          rcases List.mem_cons.mp he with rfl | he
          · exact absurd ⟨hne, hc⟩ hx
          · exact ⟨e, he, hne⟩

theorem matchedEndpoints_eq_nil (Servers : List ServerInfo) (names : List String)
    (h : ∀ name ∈ names, ∀ info ∈ Servers, info.Name ≠ name) :
    matchedEndpoints Servers names = [] := by
  simp only [matchedEndpoints, List.flatMap_eq_nil_iff, List.filter_eq_nil_iff,
    decide_eq_true_eq]
  exact h

/-- C1. For every operation that returns to its caller: when no invocation
aborts the run (the dispatch continues on error, or the operation never fails),
`executeOnServer` invokes the operation on exactly the matched endpoints: target names in the given order and, for each name,
every registry entry with that name in registry order, each invocation starting
from the state the previous one left; it then returns success. -/
theorem executeOnServer_invokes_matched {σ : Type} (Servers : List ServerInfo)
    (names : List String) (continueWhenError : Bool)
    (g : ServerInfo → σ → Option GoError × σ) (s : σ) (log : List ServerInfo)
    (h : continueWhenError = true ∨ ∀ info s, (g info s).1 = none) :
    executeOnServer Servers names continueWhenError (logged g) (s, log) =
      .ret none ((matchedEndpoints Servers names).foldl (fun s info => (g info s).2) s,
        log ++ matchedEndpoints Servers names) := by
  rw [executeOnServer_eq_runFlat]
  exact runFlat_logged_all continueWhenError g h _ s log

/-- C2. For every operation that returns to its caller: with
`continueWhenError` off, when the operation succeeds on the
matched endpoints `pre` and then fails with `err` on the next matched endpoint
`e`, `executeOnServer` returns exactly `err`, the endpoints invoked are exactly
`pre` followed by `e`, and no endpoint after `e` is invoked. -/
theorem executeOnServer_aborts_at_first_failure {σ : Type} (Servers : List ServerInfo)
    (names : List String) (g : ServerInfo → σ → Option GoError × σ)
    (pre : List ServerInfo) (e : ServerInfo) (post : List ServerInfo) (err : GoError)
    (s s1 s2 : σ) (log : List ServerInfo)
    (hsplit : matchedEndpoints Servers names = pre ++ e :: post)
    (hpre : runOk g pre s = some s1) (hfail : g e s1 = (some err, s2)) :
    executeOnServer Servers names false (logged g) (s, log) =
      .ret (some err) (s2, log ++ (pre ++ [e])) := by
  rw [executeOnServer_eq_runFlat, hsplit]
  exact runFlat_logged_abort g pre e post err s s1 s2 log hpre hfail

/-- C3. For an operation whose result depends only on the endpoint,
`executeOnServer` returns, and what it returns is a failure if and only if
`continueWhenError` is off and the operation fails on at least one matched
endpoint. In particular it returns success whenever `continueWhenError` is on,
and whenever no target name matches any registry entry. -/
theorem executeOnServer_fails_iff {σ : Type} (Servers : List ServerInfo)
    (names : List String) (continueWhenError : Bool)
    (res : ServerInfo → Option GoError) (step : ServerInfo → σ → σ) (s : σ) :
    ∃ r s', executeOnServer Servers names continueWhenError
        (fun info s => Outcome.ret (res info) (step info s)) s = .ret r s' ∧
      (r ≠ none ↔
        continueWhenError = false ∧ ∃ e ∈ matchedEndpoints Servers names, res e ≠ none) ∧
      (continueWhenError = true → r = none) ∧
      ((∀ name ∈ names, ∀ info ∈ Servers, info.Name ≠ name) → r = none) := by
  obtain ⟨r, s', hrun, hiff⟩ :=
    runFlat_pure_result continueWhenError res step (matchedEndpoints Servers names) s
  refine ⟨r, s', ?_, hiff, ?_, ?_⟩
  · rw [executeOnServer_eq_runFlat]
    exact hrun
  · intro hc
    by_contra hr
    have := (hiff.mp hr).1
    simp [hc] at this
  · intro hno
    by_contra hr
    obtain ⟨_, e, he, _⟩ := hiff.mp hr
    rw [matchedEndpoints_eq_nil Servers names hno] at he
    simp at he

/-- Instance of C1: registry `[a, b, a2]` with two entries named "a", targets
`a zzz b a`, continuing on error, an operation that fails on "b". -/
theorem executeOnServer_invokes_matched_witness :
    ((true = true) ∨ ∀ info s, (countingOp info s).1 = none) ∧
    matchedEndpoints [serverA, serverB, serverA2] ["a", "zzz", "b", "a"] =
      [serverA, serverA2, serverB, serverA, serverA2] ∧
    executeOnServer [serverA, serverB, serverA2] ["a", "zzz", "b", "a"] true
        (logged countingOp) (0, []) =
      .ret none
        ((matchedEndpoints [serverA, serverB, serverA2] ["a", "zzz", "b", "a"]).foldl
            (fun s info => (countingOp info s).2) 0,
          [] ++ matchedEndpoints [serverA, serverB, serverA2] ["a", "zzz", "b", "a"]) :=
  ⟨Or.inl rfl, by decide,
    executeOnServer_invokes_matched [serverA, serverB, serverA2] ["a", "zzz", "b", "a"] true
      countingOp 0 [] (Or.inl rfl)⟩

/-- Instance of C2: registry `[a, b, a2]`, targets `a b a`, abort on error, an
operation that fails on "b": invoked on `a`, `a2`, `b` and on nothing else. -/
theorem executeOnServer_aborts_at_first_failure_witness :
    matchedEndpoints [serverA, serverB, serverA2] ["a", "b", "a"] =
      [serverA, serverA2] ++ serverB :: [serverA, serverA2] ∧
    runOk countingOp [serverA, serverA2] 0 = some 2 ∧
    countingOp serverB 2 = (some (.remote "b is down"), 3) ∧
    executeOnServer [serverA, serverB, serverA2] ["a", "b", "a"] false
        (logged countingOp) (0, []) =
      .ret (some (.remote "b is down")) (3, [] ++ ([serverA, serverA2] ++ [serverB])) :=
  ⟨by decide, by decide, by decide,
    executeOnServer_aborts_at_first_failure [serverA, serverB, serverA2] ["a", "b", "a"]
      countingOp [serverA, serverA2] serverB [serverA, serverA2] (.remote "b is down")
      0 2 3 [] (by decide) (by decide) (by decide)⟩

/-- Instance of C3: abort on error with a failing matched endpoint returns a
failure. -/
theorem executeOnServer_fails_iff_witness :
    ∃ r s', executeOnServer [serverA, serverB] ["zzz", "b"] false
        (fun info s => Outcome.ret (countingOp info 0).1 (s + 1)) 0 = .ret r s' ∧
      r ≠ none := by
  obtain ⟨r, s', hrun, hiff, _, _⟩ :=
    executeOnServer_fails_iff [serverA, serverB] ["zzz", "b"] false
      (fun info => (countingOp info 0).1) (fun _ s => s + 1) 0
  exact ⟨r, s', hrun, hiff.mpr ⟨rfl, serverB, by decide, by decide⟩⟩

/-! ### Status reporter (C4, C5, C10) -/

theorem getStatusJson_loop_eq (now : I64) (recs : List ProcessInfo) (acc : List ServiceState) :
    getStatusJson.loop now recs acc = acc ++ recs.map (getStatusJson.service now) := by
  induction recs generalizing acc with
  | nil => simp [getStatusJson.loop]
  | cons r rs ih => simp [getStatusJson.loop, ih]

theorem getStatusJson_ok (env : Remote) (sInfo : ServerInfo) (w : World)
    (recs : List ProcessInfo) (hok : env.GetAllProcessInfo w sInfo = .ok recs) :
    getStatusJson env sInfo w =
      (.ok { server_name := sInfo.Name
             now_ts := NOW_TS (env.UnixNano (w ++ [Event.GetAllProcessInfo sInfo]))
             services := recs.map (getStatusJson.service
               (NOW_TS (env.UnixNano (w ++ [Event.GetAllProcessInfo sInfo])))) },
        w ++ [Event.GetAllProcessInfo sInfo]) := by
  simp [getStatusJson, hok, getStatusJson_loop_eq]

theorem forall₂_map_of_forall {α β : Type} (R : α → β → Prop) (f : α → β)
    (h : ∀ a, R a (f a)) (xs : List α) : List.Forall₂ R xs (xs.map f) := by
  induction xs with
  | nil => exact List.Forall₂.nil
  | cons x xs ih => exact List.Forall₂.cons (h x) ih

theorem wrapInt64_val_of_range (x : Int)
    (h : -9223372036854775808 ≤ x ∧ x < 9223372036854775808) : (wrapInt64 x).val = x := by
  simp only [wrapInt64]
  omega

theorem service_uptime_of_pos (now : I64) (r : ProcessInfo) (h : 0 < r.Start.val) :
    (getStatusJson.service now r).Uptime_seconds = wrapInt64 (now.val - r.Start.val) := by
  simp [getStatusJson.service, h]

theorem service_uptime_of_le (now : I64) (r : ProcessInfo) (h : r.Start.val ≤ now.val) :
    0 ≤ (getStatusJson.service now r).Uptime_seconds.val ∧
      (0 < r.Start.val →
        (getStatusJson.service now r).Uptime_seconds.val = max 0 (now.val - r.Start.val)) := by
  have hn := now.property
  have hs := r.Start.property
  by_cases hpos : r.Start.val > 0
  · have hv : (wrapInt64 (now.val - r.Start.val)).val = now.val - r.Start.val :=
      wrapInt64_val_of_range _ (by omega)
    simp only [getStatusJson.service, hpos, if_true, hv]
    refine ⟨by omega, fun _ => ?_⟩
    rw [max_eq_right (by omega)]
  · refine ⟨?_, fun h0 => absurd h0 hpos⟩
    simp [getStatusJson.service, hpos]

/-- C4 (as amended). For every successful listing and every query timestamp,
`getStatusJson` returns a document in which the `Uptime_seconds` of a record
with start epoch `> 0` is the 64-bit difference `now - Start`, with no clamp at
0; for every record whose start epoch is not later than the query timestamp it
is `>= 0`, and equals `max(0, now - Start)` when that start epoch is `> 0`. -/
theorem getStatusJson_uptime_nonneg (env : Remote) (sInfo : ServerInfo) (w : World)
    (recs : List ProcessInfo) (hok : env.GetAllProcessInfo w sInfo = .ok recs) :
    ∃ doc, getStatusJson env sInfo w = (.ok doc, w ++ [Event.GetAllProcessInfo sInfo]) ∧
      List.Forall₂ (fun r svc =>
        (0 < r.Start.val → svc.Uptime_seconds = wrapInt64 (doc.now_ts.val - r.Start.val)) ∧
        (r.Start.val ≤ doc.now_ts.val →
          0 ≤ svc.Uptime_seconds.val ∧
          (0 < r.Start.val → svc.Uptime_seconds.val = max 0 (doc.now_ts.val - r.Start.val))))
        recs doc.services := by
  refine ⟨_, getStatusJson_ok env sInfo w recs hok, ?_⟩
  exact forall₂_map_of_forall _ _
    (fun r => ⟨service_uptime_of_pos _ r, service_uptime_of_le _ r⟩) recs

/-- Instance of the amended C4 with the clock at 150 s. -/
theorem getStatusJson_uptime_nonneg_witness :
    envClockAhead.GetAllProcessInfo [] serverA = .ok [webProc, dbProc] ∧
    ∃ doc, getStatusJson envClockAhead serverA [] =
        (.ok doc, [] ++ [Event.GetAllProcessInfo serverA]) ∧
      List.Forall₂ (fun r svc =>
        (0 < r.Start.val → svc.Uptime_seconds = wrapInt64 (doc.now_ts.val - r.Start.val)) ∧
        (r.Start.val ≤ doc.now_ts.val →
          0 ≤ svc.Uptime_seconds.val ∧
          (0 < r.Start.val → svc.Uptime_seconds.val = max 0 (doc.now_ts.val - r.Start.val))))
        [webProc, dbProc] doc.services :=
  ⟨rfl, getStatusJson_uptime_nonneg envClockAhead serverA [] [webProc, dbProc] rfl⟩

/-- C4 (counterexample). With the query timestamp at 50 and a record started at
epoch 100, `getStatusJson` reports `Uptime_seconds = -50`: negative, and not
`max(0, now - Start)`. -/
theorem getStatusJson_uptime_negative :
    ∃ doc w', getStatusJson envClockBehind serverA [] = (.ok doc, w') ∧
      doc.now_ts.val = 50 ∧
      ∃ svc ∈ doc.services, svc.Started_ts.val = 100 ∧ svc.Uptime_seconds.val = -50 ∧
        ¬ (0 ≤ svc.Uptime_seconds.val) ∧
        svc.Uptime_seconds.val ≠ max 0 (doc.now_ts.val - svc.Started_ts.val) := by
  refine ⟨_, _, getStatusJson_ok envClockBehind serverA [] [webProc, dbProc] rfl, by decide,
    getStatusJson.service (i64 50) webProc, ?_, by decide, by decide, by decide, by decide⟩
  decide

/-- C5. For every successful listing and every query timestamp, `getStatusJson`
returns a document in which every record whose start epoch is `<= 0` has
`Uptime_seconds` exactly 0 and `Started_ts` equal to that start epoch. -/
theorem getStatusJson_uptime_zero_when_not_started (env : Remote) (sInfo : ServerInfo)
    (w : World) (recs : List ProcessInfo) (hok : env.GetAllProcessInfo w sInfo = .ok recs) :
    ∃ doc, getStatusJson env sInfo w = (.ok doc, w ++ [Event.GetAllProcessInfo sInfo]) ∧
      List.Forall₂ (fun r svc =>
        r.Start.val ≤ 0 → svc.Uptime_seconds.val = 0 ∧ svc.Started_ts = r.Start)
        recs doc.services := by
  refine ⟨_, getStatusJson_ok env sInfo w recs hok, ?_⟩
  refine forall₂_map_of_forall _ _ (fun r h => ?_) recs
  have hpos : ¬ r.Start.val > 0 := by omega
  simp [getStatusJson.service, hpos]

/-- Instance of C5 on a listing that holds a never started process. -/
theorem getStatusJson_uptime_zero_when_not_started_witness :
    envClockBehind.GetAllProcessInfo [] serverB = .ok [webProc, dbProc] ∧
    ∃ doc, getStatusJson envClockBehind serverB [] =
        (.ok doc, [] ++ [Event.GetAllProcessInfo serverB]) ∧
      List.Forall₂ (fun r svc =>
        r.Start.val ≤ 0 → svc.Uptime_seconds.val = 0 ∧ svc.Started_ts = r.Start)
        [webProc, dbProc] doc.services :=
  ⟨rfl,
    getStatusJson_uptime_zero_when_not_started envClockBehind serverB [] [webProc, dbProc] rfl⟩

/-- C10. For every successful listing, the `services` sequence of the document
built by `getStatusJson` has the length and order of the received records, and
its i-th entry carries the i-th record's name, state name, pid and start
epoch. -/
theorem getStatusJson_services_follow_records (env : Remote) (sInfo : ServerInfo)
    (w : World) (recs : List ProcessInfo) (hok : env.GetAllProcessInfo w sInfo = .ok recs) :
    ∃ doc, getStatusJson env sInfo w = (.ok doc, w ++ [Event.GetAllProcessInfo sInfo]) ∧
      doc.services.length = recs.length ∧
      List.Forall₂ (fun r svc =>
        svc.Name = r.Name ∧ svc.State = r.Statename ∧ svc.Pid = r.Pid ∧
          svc.Started_ts = r.Start)
        recs doc.services := by
  refine ⟨_, getStatusJson_ok env sInfo w recs hok, by simp, ?_⟩
  exact forall₂_map_of_forall _ _ (fun r => by simp [getStatusJson.service]) recs

/-- Instance of C10 on a listing of two processes. -/
theorem getStatusJson_services_follow_records_witness :
    envClockAhead.GetAllProcessInfo [] serverB = .ok [webProc, dbProc] ∧
    ∃ doc, getStatusJson envClockAhead serverB [] =
        (.ok doc, [] ++ [Event.GetAllProcessInfo serverB]) ∧
      doc.services.length = [webProc, dbProc].length ∧
      List.Forall₂ (fun r svc =>
        svc.Name = r.Name ∧ svc.State = r.Statename ∧ svc.Pid = r.Pid ∧
          svc.Started_ts = r.Start)
        [webProc, dbProc] doc.services :=
  ⟨rfl, getStatusJson_services_follow_records envClockAhead serverB [] [webProc, dbProc] rfl⟩


/-! ### Observations are additive -/

theorem listCalls_append (w v : World) : listCalls (w ++ v) = listCalls w ++ listCalls v := by
  simp [listCalls, List.filterMap_append]

theorem changeCalls_append (w v : World) :
    changeCalls (w ++ v) = changeCalls w ++ changeCalls v := by
  simp [changeCalls, List.filterMap_append]

theorem listCalls_rows (recs : List ProcessInfo) (w : World) :
    listCalls (printStatus.rows recs w) = listCalls w := by
  induction recs generalizing w with
  | nil => rfl
  | cons r rs ih =>
    rw [printStatus.rows, ih, listCalls_append]
    simp [listCalls]

theorem listCalls_printStatus (env : Remote) (sInfo : ServerInfo) (w : World) :
    listCalls (printStatus env sInfo w).2 = listCalls w ++ [sInfo] := by
  unfold printStatus
  cases h : env.GetAllProcessInfo w sInfo with
  | error msg => simp [listCalls_append, listCalls]
  | ok recs =>
    simp only [listCalls_append, listCalls_rows]
    simp [listCalls]

theorem listCalls_all (env : Remote) (Servers : List ServerInfo) (w : World) :
    listCalls (cmdStatus.Execute.all env Servers w) = listCalls w ++ Servers := by
  induction Servers generalizing w with
  | nil => simp [cmdStatus.Execute.all]
  | cons info rest ih => simp [cmdStatus.Execute.all, ih, listCalls_printStatus]

/-! ### Status handlers (C8, C9) -/

/-- C8. Called with no names, the status handler returns success after exactly
one "get all process info" call per registry entry, in registry order, whatever
the individual calls answer. -/
theorem cmdStatus_all_servers (env : Remote) (Servers : List ServerInfo) (w : World) :
    ∃ w', cmdStatus.Execute env Servers [] w = .ret none w' ∧
      listCalls w' = listCalls w ++ Servers ∧
      (listCalls w').length = (listCalls w).length + Servers.length := by
  refine ⟨cmdStatus.Execute.all env Servers w, by simp [cmdStatus.Execute], ?_, ?_⟩
  · exact listCalls_all env Servers w
  · simp [listCalls_all]

/-- C9 (the code at the failing input). Registry `[a, b]`, "a" unreachable and
"b" healthy. `status_json`, with no names and with the names `a b`, exits the
process with status 1 right after the failed call to "a": "b" is never queried
and no JSON document is printed. The table `status` handler on the same input
returns success after querying both and rendering the table of "b". -/
theorem cmdStatusJson_exits_on_first_failure :
    cmdStatusJson.Execute envADown [serverA, serverB] [] [] =
      .exit 1 [Event.GetAllProcessInfo serverA, Event.Println "connection refused",
        Event.Fatal (.remote "connection refused")] ∧
    cmdStatusJson.Execute envADown [serverA, serverB] ["a", "b"] [] =
      .exit 1 [Event.GetAllProcessInfo serverA, Event.Println "connection refused",
        Event.Fatal (.remote "connection refused")] ∧
    cmdStatus.Execute envADown [serverA, serverB] [] [] =
      .ret none [Event.GetAllProcessInfo serverA, Event.Println "connection refused",
        Event.GetAllProcessInfo serverB,
        Event.Fprintf (.server "b" "http://b.example:9001/RPC2"),
        Event.Fprintf .columns,
        Event.Fprintf (.row "web" "RUNNING" (i64 4711) (i64 100)),
        Event.Fprintf (.row "db" "STOPPED" (i64 0) (i64 0)),
        Event.Fprintf .blank, Event.Flush] := by
  decide

/-! ### Sequential loops with abort on the first failure -/

theorem returning_mk {σ α : Type} (a : α) (s : σ) : returning (a, s) = Outcome.ret a s := rfl

theorem runFlat_map {α β σ : Type} (c : Bool) (f : β → σ → Outcome σ (Option GoError))
    (h : α → β) (xs : List α) (s : σ) :
    runFlat c f (xs.map h) s = runFlat c (fun a s => f (h a) s) xs s := by
  induction xs generalizing s with
  | nil => simp [runFlat]
  | cons x xs ih =>
    simp only [List.map_cons, runFlat]
    cases hx : f (h x) s with
    | exit code s' => rfl
    | ret err s' => simp [ih]

theorem runFlat_flatMap {α β σ : Type} (f : α → β → σ → Outcome σ (Option GoError))
    (es : List α) (ps : List β) (s : σ) :
    runFlat false (fun e s => runFlat false (fun p s => f e p s) ps s) es s =
      runFlat false (fun a s => f a.1 a.2 s)
        (es.flatMap (fun e => ps.map (fun p => (e, p)))) s := by
  induction es generalizing s with
  | nil => simp [runFlat]
  | cons e es ih =>
    rw [List.flatMap_cons, runFlat_append, runFlat_map, runFlat]
    cases hx : runFlat false (fun p s => f e p s) ps s with
    | exit code s' => rfl
    | ret err s' =>
      cases err with
      | none => simp [ih]
      | some e' => simp

theorem matchedEndpoints_singleton (Servers : List ServerInfo) (server : String) :
    matchedEndpoints Servers [server] = Servers.filter (fun info => info.Name = server) := by
  simp [matchedEndpoints]

/-! ### Start and stop (C6, C7) -/

theorem start_not_usage (env : Remote) (sInfo : ServerInfo) (p : String) (w : World) :
    (start env sInfo p w).1 ≠ some .errServerAndProcessNameAreNeeded := by
  unfold start
  cases h : env.ChangeProcessState w sInfo "start" p with
  | error msg => simp
  | ok b => cases b <;> simp

theorem stop_not_usage (env : Remote) (sInfo : ServerInfo) (p : String) (w : World) :
    (stop env sInfo p w).1 ≠ some .errServerAndProcessNameAreNeeded := by
  unfold stop
  cases h : env.ChangeProcessState w sInfo "stop" p with
  | error msg => simp
  | ok b => cases b <;> simp

theorem cmdStart_body_eq_runFlat (env : Remote) (sInfo : ServerInfo) (ps : List String)
    (w : World) :
    returning (cmdStart.Execute.body env sInfo ps w) =
      runFlat false (fun p w => returning (start env sInfo p w)) ps w := by
  induction ps generalizing w with
  | nil => simp [cmdStart.Execute.body, runFlat, returning]
  | cons p ps ih =>
    simp only [cmdStart.Execute.body, runFlat]
    cases hx : start env sInfo p w with
    | mk r w' =>
      cases r with
      | none => simp [returning_mk, ← ih]
      | some e => simp [returning_mk]

theorem cmdStop_body_eq_runFlat (env : Remote) (sInfo : ServerInfo) (ps : List String)
    (w : World) :
    returning (cmdStop.Execute.body env sInfo ps w) =
      runFlat false (fun p w => returning (stop env sInfo p w)) ps w := by
  induction ps generalizing w with
  | nil => simp [cmdStop.Execute.body, runFlat, returning]
  | cons p ps ih =>
    simp only [cmdStop.Execute.body, runFlat]
    cases hx : stop env sInfo p w with
    | mk r w' =>
      cases r with
      | none => simp [returning_mk, ← ih]
      | some e => simp [returning_mk]

theorem cmdStart_Execute_eq_runFlat (env : Remote) (Servers : List ServerInfo)
    (server : String) (processNames : List String) (w : World) (hn : processNames ≠ []) :
    cmdStart.Execute env Servers (server :: processNames) w =
      runFlat false (fun a w => returning (start env a.1 a.2 w))
        (attempts Servers server processNames) w := by
  have hlen : ¬ (server :: processNames).length ≤ 1 := by
    cases processNames with
    | nil => exact absurd rfl hn
    | cons p ps => simp
  simp only [cmdStart.Execute, hlen, dif_neg, not_false_eq_true, List.getElem_cons_zero,
    List.drop_succ_cons, List.drop_zero]
  rw [executeOnServer_eq_runFlat, matchedEndpoints_singleton]
  simp only [cmdStart_body_eq_runFlat]
  exact runFlat_flatMap (fun e p w => returning (start env e p w)) _ processNames w

theorem cmdStop_Execute_eq_runFlat (env : Remote) (Servers : List ServerInfo)
    (server : String) (processNames : List String) (w : World) (hn : processNames ≠ []) :
    cmdStop.Execute env Servers (server :: processNames) w =
      runFlat false (fun a w => returning (stop env a.1 a.2 w))
        (attempts Servers server processNames) w := by
  have hlen : ¬ (server :: processNames).length ≤ 1 := by
    cases processNames with
    | nil => exact absurd rfl hn
    | cons p ps => simp
  simp only [cmdStop.Execute, hlen, dif_neg, not_false_eq_true, List.getElem_cons_zero,
    List.drop_succ_cons, List.drop_zero]
  rw [executeOnServer_eq_runFlat, matchedEndpoints_singleton]
  simp only [cmdStop_body_eq_runFlat]
  exact runFlat_flatMap (fun e p w => returning (stop env e p w)) _ processNames w

theorem runFlat_returning_ne {α σ : Type} (c : Bool) (step : α → σ → Option GoError × σ)
    (bad : GoError) (hstep : ∀ a s, (step a s).1 ≠ some bad) (xs : List α) (s s' : σ) :
    runFlat c (fun a s => returning (step a s)) xs s ≠ .ret (some bad) s' := by
  induction xs generalizing s with
  | nil => simp [runFlat]
  | cons x xs ih =>
    simp only [runFlat, returning]
    split
    · intro h
      injection h with h1 h2
      exact hstep x s h1
    · exact ih _

/-- C6. With fewer than 2 arguments the start handler and the stop handler each
print the usage line, return `errServerAndProcessNameAreNeeded` and do nothing
else: no remote call is issued. With 2 or more arguments neither of them
returns that error. -/
theorem start_stop_usage_error (env : Remote) (Servers : List ServerInfo)
    (args : List String) (w : World) :
    (args.length < 2 →
      cmdStart.Execute env Servers args w =
        .ret (some .errServerAndProcessNameAreNeeded)
          (w ++ [Event.Println "server name and process name needed"]) ∧
      cmdStop.Execute env Servers args w =
        .ret (some .errServerAndProcessNameAreNeeded)
          (w ++ [Event.Println "server name and process name needed"]) ∧
      changeCalls (w ++ [Event.Println "server name and process name needed"]) =
        changeCalls w ∧
      listCalls (w ++ [Event.Println "server name and process name needed"]) =
        listCalls w) ∧
    (2 ≤ args.length → ∀ w',
      cmdStart.Execute env Servers args w ≠
        .ret (some .errServerAndProcessNameAreNeeded) w' ∧
      cmdStop.Execute env Servers args w ≠
        .ret (some .errServerAndProcessNameAreNeeded) w') := by
  constructor
  · intro h
    have hlen : args.length ≤ 1 := by omega
    refine ⟨by simp [cmdStart.Execute, hlen], by simp [cmdStop.Execute, hlen], ?_, ?_⟩
    · simp [changeCalls_append, changeCalls]
    · simp [listCalls_append, listCalls]
  · intro h w'
    match args, h with
    | server :: p :: ps, _ =>
      constructor
      · rw [cmdStart_Execute_eq_runFlat env Servers server (p :: ps) w (by simp)]
        exact runFlat_returning_ne false _ _
          (fun (a : ServerInfo × String) s => start_not_usage env a.1 a.2 s) _ w w'
      · rw [cmdStop_Execute_eq_runFlat env Servers server (p :: ps) w (by simp)]
        exact runFlat_returning_ne false _ _
          (fun (a : ServerInfo × String) s => stop_not_usage env a.1 a.2 s) _ w w'

/-- Instance of C6: `start a`, `stop` with no argument, and `start a p1`. -/
theorem start_stop_usage_error_witness :
    (["a"] : List String).length < 2 ∧ 2 ≤ (["a", "p1"] : List String).length ∧
    cmdStart.Execute envADown [serverA, serverB] ["a"] [] =
      .ret (some .errServerAndProcessNameAreNeeded)
        ([] ++ [Event.Println "server name and process name needed"]) ∧
    cmdStop.Execute envADown [serverA, serverB] [] [] =
      .ret (some .errServerAndProcessNameAreNeeded)
        ([] ++ [Event.Println "server name and process name needed"]) ∧
    cmdStart.Execute envADown [serverA, serverB] ["a", "p1"] [] ≠
      .ret (some .errServerAndProcessNameAreNeeded) [] :=
  ⟨by decide, by decide,
    ((start_stop_usage_error envADown [serverA, serverB] ["a"] []).1 (by decide)).1,
    ((start_stop_usage_error envADown [serverA, serverB] [] []).1 (by decide)).2.1,
    ((start_stop_usage_error envADown [serverA, serverB] ["a", "p1"] []).2 (by decide) []).1⟩

end Supervisor
